import Mathlib

/-!
Verification of the diff-to-review pipeline of the `ai-codereviewer` GitHub
Action (src/src/main.ts and the minimatch-filtering variant in src/unnamed).

Shallow embedding conventions:
* The pipeline's pure core (score calculation, diff statistics, path
  filtering, comment assembly, control flow of `main`) is translated
  directly from the TypeScript source.
* External collaborators (the OpenAI chat/completions endpoints, JSON.parse,
  the octokit diff fetch, parse-diff) are modelled as oracle arguments:
  an `Except` value stands for a call that either returns or throws, and
  `Option` stands for a value that may be absent (JS `undefined`/`null`).
* Numeric score arithmetic is modelled exactly over `ℚ` (the spec states the
  score as a mathematical formula; IEEE double round-off is not modelled).
* Imperative `for … push` accumulation is modelled as `List.foldl` with
  list append, exactly following the loop structure of the source.
-/

namespace AICodeReviewer

/-- Aggregate diff statistics, as produced by `extractDiffStats`
(src/src/main.ts lines 50-58).  All four fields are non-negative counters. -/
@[ext]
structure DiffStats where
  linesAdded : Nat
  linesDeleted : Nat
  linesChanged : Nat
  filesChanged : Nat
deriving Repr, DecidableEq

/-- One line change of a parsed diff (parse-diff `Change`): `add`/`del` flags
and the optional line numbers `ln`/`ln2` used by the prompt builder. -/
structure Change where
  add : Bool
  del : Bool
  ln : Option Int
  ln2 : Option Int
  content : String
deriving Repr, DecidableEq

/-- One hunk of a parsed diff (parse-diff `Chunk`): the raw hunk text block
plus its ordered line changes. -/
structure Chunk where
  content : String
  changes : List Change
deriving Repr, DecidableEq

/-- One file of a parsed diff (parse-diff `File`): the post-change path
(the source's `to` field, renamed `toPath` because `to` is reserved in Lean;
`none` models JS `undefined`, `some "/dev/null"` is the deleted-file
sentinel) and the ordered hunks. -/
structure DiffFile where
  toPath : Option String
  chunks : List Chunk
deriving Repr, DecidableEq

/-- One review entry returned by the model for a hunk
(`{lineNumber, reviewComment}`). -/
structure Finding where
  lineNumber : Int
  reviewComment : String
deriving Repr, DecidableEq

/-- One assembled review comment as pushed by `analyzeCode` and
`handlePullRequest` (src/src/main.ts lines 92 and 270).  The summary comment
is pushed without a `diff_hunk` field, hence the `Option`. -/
structure ReviewComment where
  body : String
  path : Option String
  line : Int
  diff_hunk : Option String
deriving Repr, DecidableEq

/-- Embeds `calculatePRScore` (src/src/main.ts lines 47-48):
`0.5 * linesAdded + 0.3 * linesDeleted + 0.2 * linesChanged - 5 * filesChanged`,
with the arithmetic carried out exactly in `ℚ`. -/
def calculatePRScore (stats : DiffStats) : ℚ :=
  0.5 * (stats.linesAdded : ℚ) + 0.3 * (stats.linesDeleted : ℚ)
    + 0.2 * (stats.linesChanged : ℚ) - 5 * (stats.filesChanged : ℚ)

/-- Field-wise sum of two `DiffStats` records (the operation quantified over
by the additivity property of the spec, §8). -/
def DiffStats.addStats (a b : DiffStats) : DiffStats :=
  { linesAdded := a.linesAdded + b.linesAdded
  , linesDeleted := a.linesDeleted + b.linesDeleted
  , linesChanged := a.linesChanged + b.linesChanged
  , filesChanged := a.filesChanged + b.filesChanged }

/-- Embeds the per-change body of the `forEach` loop of `extractDiffStats`
(src/src/main.ts lines 53-55): `if (change.add) linesAdded++;
else if (change.del) linesDeleted++; else linesChanged++`. -/
def countChange (stats : DiffStats) (change : Change) : DiffStats :=
  if change.add then { stats with linesAdded := stats.linesAdded + 1 }
  else if change.del then { stats with linesDeleted := stats.linesDeleted + 1 }
  else { stats with linesChanged := stats.linesChanged + 1 }

/-- Embeds the per-chunk `forEach` of `extractDiffStats`. -/
def countChunk (stats : DiffStats) (chunk : Chunk) : DiffStats :=
  chunk.changes.foldl countChange stats

/-- Embeds the per-file `forEach` of `extractDiffStats`. -/
def countFile (stats : DiffStats) (file : DiffFile) : DiffStats :=
  file.chunks.foldl countChunk stats

/-- Embeds `extractDiffStats` (src/src/main.ts lines 50-58): counters start
at zero, `filesChanged` is initialised to `parsedDiff.length`, then every
change of every chunk of every file bumps exactly one counter. -/
def extractDiffStats (parsedDiff : List DiffFile) : DiffStats :=
  parsedDiff.foldl countFile
    { linesAdded := 0, linesDeleted := 0, linesChanged := 0
    , filesChanged := parsedDiff.length }

/-- Specification-side counter: changes with the `add` flag set. -/
def addedCount (changes : List Change) : Nat :=
  (changes.filter (fun c => c.add)).length

/-- Specification-side counter: changes with `add` clear and `del` set. -/
def deletedCount (changes : List Change) : Nat :=
  (changes.filter (fun c => !c.add && c.del)).length

/-- Specification-side counter: changes with both flags clear
(context lines). -/
def contextCount (changes : List Change) : Nat :=
  (changes.filter (fun c => !c.add && !c.del)).length

/-- Total `add`-flagged changes over a whole parsed diff. -/
def diffAdded (parsedDiff : List DiffFile) : Nat :=
  (parsedDiff.map (fun file =>
    (file.chunks.map (fun chunk => addedCount chunk.changes)).sum)).sum

/-- Total deleted changes over a whole parsed diff. -/
def diffDeleted (parsedDiff : List DiffFile) : Nat :=
  (parsedDiff.map (fun file =>
    (file.chunks.map (fun chunk => deletedCount chunk.changes)).sum)).sum

/-- Total context changes over a whole parsed diff. -/
def diffContext (parsedDiff : List DiffFile) : Nat :=
  (parsedDiff.map (fun file =>
    (file.chunks.map (fun chunk => contextCount chunk.changes)).sum)).sum

/-- Total number of line changes over a whole parsed diff. -/
def totalChanges (parsedDiff : List DiffFile) : Nat :=
  (parsedDiff.map (fun file =>
    (file.chunks.map (fun chunk => chunk.changes.length)).sum)).sum

/-- Modelled from the spec: path-segment splitting at the `/` separator, as
used by the external `minimatch` collaborator (spec §4.1); equivalent to
JavaScript `String.split("/")` for these inputs. -/
def splitSegs (cs : List Char) : List (List Char) :=
  cs.foldr (fun c acc =>
    if c = '/' then [] :: acc
    else match acc with
      | [] => [[c]]
      | s :: rest => (c :: s) :: rest) [[]]

/-- Modelled from the spec: within-segment glob matching of the external
`minimatch` collaborator — a literal character matches itself and `*`
matches any (possibly empty) run of characters within the segment,
case-sensitively (spec §4.1). -/
def segMatch : List Char → List Char → Bool
  | [], s => s.isEmpty
  | c :: ps, s =>
    if c = '*' then s.tails.any (fun t => segMatch ps t)
    else match s with
      | [] => false
      | d :: ds => c == d && segMatch ps ds

/-- Modelled from the spec: segment-level glob matching of the external
`minimatch` collaborator — a `**` pattern segment matches any (possibly
empty) run of path segments, any other pattern segment matches exactly one
path segment via `segMatch` (spec §4.1). -/
def globSegs : List (List Char) → List (List Char) → Bool
  | [], ss => ss.isEmpty
  | p :: ps, ss =>
    if p = ['*', '*'] then ss.tails.any (fun t => globSegs ps t)
    else match ss with
      | [] => false
      | s :: ss2 => segMatch p s && globSegs ps ss2

/-- Modelled from the spec: the external `minimatch(path, pattern)`
collaborator, reduced to the glob semantics the spec states (`*` within a
segment, `**` across segments, case-sensitive). -/
def minimatch (path pattern : String) : Bool :=
  globSegs (splitSegs pattern.toList) (splitSegs path.toList)

/-- Embeds the exclusion-pattern parsing of `main`
(src/unnamed/part_000 line 226): split the comma-separated input and trim
each pattern. -/
def parseExcludePatterns (input : String) : List String :=
  (input.splitOn ",").map String.trim

/-- Embeds the exclusion filter of `main` (src/unnamed/part_000 lines
227-229): keep a file unless some pattern matches `file.to ?? ""`. -/
def filterExcluded (excludePatterns : List String) (parsedDiff : List DiffFile) :
    List DiffFile :=
  parsedDiff.filter (fun file =>
    !(excludePatterns.any (fun pattern => minimatch (file.toPath.getD "") pattern)))

/-- Composition of the two removal sites the path-filter contract covers:
the exclusion filter of `main` (src/unnamed/part_000 lines 226-229) followed
by the deleted-file skip of `analyzeCode` (src/unnamed/part_000 line 68,
identical in src/src/main.ts line 83): the files whose hunks are actually
analysed. -/
def keptFiles (excludePatterns : List String) (parsedDiff : List DiffFile) :
    List DiffFile :=
  (filterExcluded excludePatterns parsedDiff).filter
    (fun file => !(file.toPath == some "/dev/null"))

/-- Shape of a successfully `JSON.parse`d critique response: the optional
`reviews` field read by `getAIResponse` (src/src/main.ts line 141). -/
structure ParsedResponse where
  reviews : Option (List Finding)

/-- Embeds `getAIResponse` (src/src/main.ts lines 124-153).  The chat
endpoint is an oracle: `Except.error` models a thrown transport error,
`Except.ok content` models a response whose `choices[0].message?.content` is
`content` (`none` for JS `undefined`).  `jsonParse` models `JSON.parse`,
`none` standing for a thrown `SyntaxError`.  Both throws land in the
function's own `catch`, which returns `[]`; a non-empty raw response that
parses yields `parsed.reviews || []`; an empty raw response yields `[]`.
The function is total: no error ever propagates to the caller. -/
def getAIResponse (jsonParse : String → Option ParsedResponse)
    (chatCompletion : Except String (Option String)) : List Finding :=
  match chatCompletion with
  | Except.error _ => []
  | Except.ok content =>
    let rawResponse := content.getD ""
    if rawResponse ≠ "" then
      match jsonParse rawResponse with
      | some parsed => parsed.reviews.getD []
      | none => []
    else []

/-- Embeds `suggestCodeFix` (src/src/main.ts lines 207-230).  The completion
endpoint is an oracle: `Except.ok text` models `response.choices[0].text`,
`Except.error` models any thrown failure, answered by the fixed fallback
string of line 228. -/
def suggestCodeFix (completion : Except String String) : String :=
  match completion with
  | Except.ok text => text.trim
  | Except.error _ => "Unable to generate a fix."

/-- Embeds the comment built and pushed by `analyzeCode`
(src/src/main.ts lines 91-92): critique text, then the suggested fix in a
fenced code block, at `path = file.to`, `line = Number(response.lineNumber)`,
carrying the hunk text. -/
def mkFullComment (file : DiffFile) (chunk : Chunk) (response : Finding)
    (fix : String) : ReviewComment :=
  { body := response.reviewComment ++ "\n\nSuggested Fix:\n```typescript\n"
      ++ fix ++ "\n```"
  , path := file.toPath
  , line := response.lineNumber
  , diff_hunk := some chunk.content }

/-- Embeds `analyzeCode` (src/src/main.ts lines 79-98).  `respond` is the
per-hunk critique stage (`getAIResponse` composed with the chat oracle) and
`fix` the per-finding fix stage (`suggestCodeFix` composed with the
completion oracle).  Files whose path is the deleted sentinel are skipped;
otherwise every finding of every hunk is pushed in order. -/
def analyzeCode (respond : DiffFile → Chunk → List Finding)
    (fix : DiffFile → Chunk → Finding → String)
    (parsedDiff : List DiffFile) : List ReviewComment :=
  parsedDiff.foldl (fun comments file =>
    if file.toPath = some "/dev/null" then comments
    else file.chunks.foldl (fun comments chunk =>
      comments ++ (respond file chunk).map (fun response =>
        mkFullComment file chunk response (fix file chunk response))) comments) []

/-- Per-file comment contribution of `analyzeCode`, in `flatMap` normal
form (used to reason about the fold). -/
def fileComments (respond : DiffFile → Chunk → List Finding)
    (fix : DiffFile → Chunk → Finding → String) (file : DiffFile) :
    List ReviewComment :=
  if file.toPath = some "/dev/null" then []
  else file.chunks.flatMap (fun chunk =>
    (respond file chunk).map (fun response =>
      mkFullComment file chunk response (fix file chunk response)))

/-- Embeds `createScoreComment` (src/src/main.ts lines 277-280): the raw
score in text, and the score clamped to the interval from 0 to 100 in the
progress-bar URL. -/
def createScoreComment (score : ℚ) : String :=
  "### Pull Request Score: " ++ toString score
    ++ "\n![Progress](https://progress-bar.dev/"
    ++ toString (min (max score 0) 100)
    ++ "?scale=100&width=400&color=brightgreen&suffix=%)"

/-- Embeds the comment-assembly steps of `handlePullRequest`
(src/src/main.ts lines 264-274): the `analyzeCode` output followed by the
single pushed score-summary comment with `path = ''` and `line = 0`. -/
def handlePullRequestComments (respond : DiffFile → Chunk → List Finding)
    (fix : DiffFile → Chunk → Finding → String)
    (parsedDiff : List DiffFile) : List ReviewComment :=
  let comments := analyzeCode respond fix parsedDiff
  let score := calculatePRScore (extractDiffStats parsedDiff)
  comments ++
    [{ body := createScoreComment score, path := some "", line := 0
     , diff_hunk := none }]

/-- Outbound calls observable in a pipeline run, for the control-flow model
of `main` / `handlePullRequest`. -/
inductive Effect where
  | resolveComments : Effect
  | fetchDiffCall : Effect
  | modelCall : Effect
  | postReviewCall : Effect
deriving Repr, DecidableEq

/-- Oracle environment of one run: the trigger action and the outcomes of
the external calls. -/
structure Env where
  action : String
  diffFetch : Except String String
  parseDiff : String → List DiffFile
  respond : DiffFile → Chunk → List Finding
  fix : DiffFile → Chunk → Finding → String

/-- Model calls issued by `analyzeCode`: one chat request per hunk of every
non-deleted file (src/src/main.ts line 86) plus one completion request per
finding (line 90). -/
def analyzeEffects (respond : DiffFile → Chunk → List Finding)
    (parsedDiff : List DiffFile) : List Effect :=
  parsedDiff.flatMap (fun file =>
    if file.toPath = some "/dev/null" then []
    else file.chunks.flatMap (fun chunk =>
      Effect.modelCall :: (respond file chunk).map (fun _ => Effect.modelCall)))

/-- Control-flow model of `handlePullRequest` (src/src/main.ts lines
255-275) together with `fetchDiff` (lines 232-253): first the
resolve-existing-comments call (errors caught inside, lines 175-182), then
the diff fetch.  A failed fetch is caught by `fetchDiff`, logged and
re-thrown (lines 245-252); nothing in `handlePullRequest` catches it, so it
propagates to `main`'s catch, which calls `process.exit(1)` (lines 291-294).
A fetch that returns a falsy (empty) diff logs `No diff found` and returns
normally, exit code 0 (lines 259-262).  Otherwise the hunks are analysed and
the review (always non-empty, as the summary comment was pushed) is posted;
posting errors are caught inside `postReviewComments` (lines 196-205), so
the run still exits 0. -/
def handlePullRequestRun (env : Env) : List Effect × Nat :=
  match env.diffFetch with
  | Except.error _ => ([Effect.resolveComments, Effect.fetchDiffCall], 1)
  | Except.ok diff =>
    if diff = "" then ([Effect.resolveComments, Effect.fetchDiffCall], 0)
    else
      ([Effect.resolveComments, Effect.fetchDiffCall]
        ++ analyzeEffects env.respond (env.parseDiff diff)
        ++ [Effect.postReviewCall], 0)

/-- Control-flow model of `main` (src/src/main.ts lines 282-300): an action
other than `opened` or `synchronize` logs `Unsupported event` and returns
before any outbound pipeline call, and the process then terminates normally
with exit code 0; otherwise `handlePullRequest` runs and any error it
throws is caught by the surrounding try, giving exit code 1. -/
def mainRun (env : Env) : List Effect × Nat :=
  if env.action = "opened" ∨ env.action = "synchronize" then
    handlePullRequestRun env
  else ([], 0)

/-- Concrete environment in which the diff fetch fails with a transport
error while the trigger action is supported. -/
def envDiffFetchFail : Env :=
  { action := "opened"
  , diffFetch := Except.error "HTTP 500"
  , parseDiff := fun _ => []
  , respond := fun _ _ => []
  , fix := fun _ _ _ => "" }

/-- Concrete hunk whose line changes occupy new-file lines 1 to 3 only. -/
def chunkC9 : Chunk :=
  { content := "@@ -1,2 +1,3 @@"
  , changes :=
    [ { add := false, del := false, ln := some 1, ln2 := some 1, content := " ctx" }
    , { add := true, del := false, ln := some 2, ln2 := none, content := "+new" }
    , { add := false, del := true, ln := none, ln2 := some 3, content := "-old" } ] }

/-- Concrete non-deleted file holding only `chunkC9`. -/
def fileC9 : DiffFile := { toPath := some "src/a.ts", chunks := [chunkC9] }

/-- Concrete model finding whose line number 999 lies outside `chunkC9`. -/
def findingC9 : Finding := { lineNumber := 999, reviewComment := "off-hunk" }

/-- Concrete `JSON.parse` oracle that always throws (`SyntaxError`). -/
def jsonParseNone : String → Option ParsedResponse := fun _ => none

/-- Concrete chat oracle whose response text is not parseable as JSON. -/
def modelTextBad : DiffFile → Chunk → Except String (Option String) :=
  fun _ _ => Except.ok (some "not json")

/-- Concrete empty hunk used by witnesses. -/
def chunkW : Chunk := { content := "@@ -0,0 +1 @@", changes := [] }

/-- Concrete single-hunk non-deleted file used by witnesses. -/
def fileW : DiffFile := { toPath := some "a.ts", chunks := [chunkW] }

/-- Concrete fix-stage oracle used by witnesses. -/
def fixW : DiffFile → Chunk → Finding → String := fun _ _ _ => "noop"

/-- Concrete finding used by the fix-fallback witness. -/
def findingW : Finding := { lineNumber := 5, reviewComment := "crit" }

/-- Concrete completion oracle that always fails with a timeout. -/
def completionW : DiffFile → Chunk → Finding → Except String String :=
  fun _ _ _ => Except.error "timeout"

/-- Concrete environment whose trigger action is `closed`. -/
def envClosed : Env :=
  { action := "closed"
  , diffFetch := Except.ok ""
  , parseDiff := fun _ => []
  , respond := fun _ _ => []
  , fix := fun _ _ _ => "" }

/-! Helper lemmas. -/

lemma foldl_append_flatMap {α β : Type} (g : α → List β) (l : List α)
    (acc : List β) :
    l.foldl (fun a x => a ++ g x) acc = acc ++ l.flatMap g := by
  induction l generalizing acc with
  | nil => simp
  | cons x xs ih => simp [ih]

lemma analyzeCode_foldl_general (respond : DiffFile → Chunk → List Finding)
    (fix : DiffFile → Chunk → Finding → String)
    (files : List DiffFile) (acc : List ReviewComment) :
    files.foldl (fun comments file =>
      if file.toPath = some "/dev/null" then comments
      else file.chunks.foldl (fun comments chunk =>
        comments ++ (respond file chunk).map (fun response =>
          mkFullComment file chunk response (fix file chunk response))) comments) acc
      = acc ++ files.flatMap (fileComments respond fix) := by
  induction files generalizing acc with
  | nil => simp
  | cons f fs ih =>
    rw [List.foldl_cons, ih]
    by_cases h : f.toPath = some "/dev/null"
    · simp [h, fileComments]
    · simp [h, fileComments, foldl_append_flatMap]

lemma analyzeCode_eq_flatMap (respond : DiffFile → Chunk → List Finding)
    (fix : DiffFile → Chunk → Finding → String) (parsedDiff : List DiffFile) :
    analyzeCode respond fix parsedDiff
      = parsedDiff.flatMap (fileComments respond fix) := by
  have h := analyzeCode_foldl_general respond fix parsedDiff []
  simpa [analyzeCode] using h

lemma foldl_countChange (changes : List Change) (s : DiffStats) :
    changes.foldl countChange s =
      { linesAdded := s.linesAdded + addedCount changes
      , linesDeleted := s.linesDeleted + deletedCount changes
      , linesChanged := s.linesChanged + contextCount changes
      , filesChanged := s.filesChanged } := by
  induction changes generalizing s with
  | nil => simp [addedCount, deletedCount, contextCount]
  | cons c cs ih =>
    rw [List.foldl_cons, ih]
    ext <;>
      by_cases h1 : c.add <;> by_cases h2 : c.del <;>
        simp [countChange, addedCount, deletedCount, contextCount,
          List.filter_cons, h1, h2] <;>
        omega

lemma foldl_countChunk (chunks : List Chunk) (s : DiffStats) :
    chunks.foldl countChunk s =
      { linesAdded := s.linesAdded
          + (chunks.map (fun ch => addedCount ch.changes)).sum
      , linesDeleted := s.linesDeleted
          + (chunks.map (fun ch => deletedCount ch.changes)).sum
      , linesChanged := s.linesChanged
          + (chunks.map (fun ch => contextCount ch.changes)).sum
      , filesChanged := s.filesChanged } := by
  induction chunks generalizing s with
  | nil => simp
  | cons ch chs ih =>
    rw [List.foldl_cons, ih]
    ext <;> simp [countChunk, foldl_countChange] <;> omega

lemma foldl_countFile (files : List DiffFile) (s : DiffStats) :
    files.foldl countFile s =
      { linesAdded := s.linesAdded + diffAdded files
      , linesDeleted := s.linesDeleted + diffDeleted files
      , linesChanged := s.linesChanged + diffContext files
      , filesChanged := s.filesChanged } := by
  induction files generalizing s with
  | nil => simp [diffAdded, diffDeleted, diffContext]
  | cons f fs ih =>
    rw [List.foldl_cons, ih]
    ext <;>
      simp [countFile, foldl_countChunk, diffAdded, diffDeleted, diffContext] <;>
      omega

lemma counts_partition (changes : List Change) :
    addedCount changes + deletedCount changes + contextCount changes
      = changes.length := by
  induction changes with
  | nil => simp [addedCount, deletedCount, contextCount]
  | cons c cs ih =>
    by_cases h1 : c.add <;> by_cases h2 : c.del <;>
      simp [addedCount, deletedCount, contextCount, List.filter_cons, h1, h2]
        at ih ⊢ <;>
      omega

lemma chunkSums_partition (chunks : List Chunk) :
    (chunks.map (fun ch => addedCount ch.changes)).sum
      + (chunks.map (fun ch => deletedCount ch.changes)).sum
      + (chunks.map (fun ch => contextCount ch.changes)).sum
      = (chunks.map (fun ch => ch.changes.length)).sum := by
  induction chunks with
  | nil => simp
  | cons ch chs ih =>
    have h := counts_partition ch.changes
    simp only [List.map_cons, List.sum_cons]
    omega

lemma diff_partition (files : List DiffFile) :
    diffAdded files + diffDeleted files + diffContext files
      = totalChanges files := by
  induction files with
  | nil => simp [diffAdded, diffDeleted, diffContext, totalChanges]
  | cons f fs ih =>
    have h := chunkSums_partition f.chunks
    simp only [diffAdded, diffDeleted, diffContext, totalChanges,
      List.map_cons, List.sum_cons] at ih ⊢
    omega

/-! Claim theorems. -/

/-- C1: `calculatePRScore` returns exactly
`0.5*linesAdded + 0.3*linesDeleted + 0.2*linesChanged - 5*filesChanged`
for every `DiffStats` record with non-negative integer fields (the fields
are `Nat`, so non-negativity is inherent); in particular it returns 0 when
all four fields are 0, and 1.6 for
`(linesAdded = 10, linesDeleted = 4, linesChanged = 2, filesChanged = 1)`.
Arithmetic is modelled exactly over `ℚ`. -/
theorem calculatePRScore_formula (stats : DiffStats) :
    calculatePRScore stats =
      0.5 * (stats.linesAdded : ℚ) + 0.3 * (stats.linesDeleted : ℚ)
        + 0.2 * (stats.linesChanged : ℚ) - 5 * (stats.filesChanged : ℚ) ∧
    calculatePRScore
      { linesAdded := 0, linesDeleted := 0, linesChanged := 0
      , filesChanged := 0 } = 0 ∧
    calculatePRScore
      { linesAdded := 10, linesDeleted := 4, linesChanged := 2
      , filesChanged := 1 } = 1.6 :=
  ⟨rfl, by norm_num [calculatePRScore], by norm_num [calculatePRScore]⟩

/-- C2: `calculatePRScore` is additive — the score of the field-wise sum of
two `DiffStats` records is the sum of their scores. -/
theorem calculatePRScore_additive (a b : DiffStats) :
    calculatePRScore (a.addStats b)
      = calculatePRScore a + calculatePRScore b := by
  unfold calculatePRScore DiffStats.addStats
  push_cast
  ring

/-- C10: `extractDiffStats` classifies each line change into exactly one
bucket — `add`-flagged changes into `linesAdded`, remaining `del`-flagged
changes into `linesDeleted`, and every other change into `linesChanged` —
so the three counters sum to the total number of line changes across all
files' hunks, and `filesChanged` equals the number of files in the diff. -/
theorem extractDiffStats_classifies (parsedDiff : List DiffFile) :
    extractDiffStats parsedDiff =
      { linesAdded := diffAdded parsedDiff
      , linesDeleted := diffDeleted parsedDiff
      , linesChanged := diffContext parsedDiff
      , filesChanged := parsedDiff.length } ∧
    (extractDiffStats parsedDiff).linesAdded
      + (extractDiffStats parsedDiff).linesDeleted
      + (extractDiffStats parsedDiff).linesChanged = totalChanges parsedDiff ∧
    (extractDiffStats parsedDiff).filesChanged = parsedDiff.length := by
  have h : extractDiffStats parsedDiff =
      { linesAdded := diffAdded parsedDiff
      , linesDeleted := diffDeleted parsedDiff
      , linesChanged := diffContext parsedDiff
      , filesChanged := parsedDiff.length } := by
    unfold extractDiffStats
    rw [foldl_countFile]
    ext <;> simp
  refine ⟨h, ?_, ?_⟩
  · rw [h]
    exact diff_partition parsedDiff
  · rw [h]

/-- C3: the path filter (the exclusion filter of `main` composed with the
deleted-file skip of `analyzeCode`) removes every file whose path is the
deleted-file sentinel `/dev/null` and every file whose path matches an
exclusion pattern under glob semantics, returning the remaining files as a
single order-preserving filter pass (hence a sublist of the input); on the
files `a/b.ts`, `a/b.test.ts`, `/dev/null` with pattern `**/*.test.ts` the
output is exactly `a/b.ts`. -/
theorem pathFilter_removes_excluded_and_deleted (excludePatterns : List String)
    (parsedDiff : List DiffFile) :
    keptFiles excludePatterns parsedDiff =
      parsedDiff.filter (fun file =>
        !(file.toPath == some "/dev/null") &&
        !(excludePatterns.any (fun pattern =>
            minimatch (file.toPath.getD "") pattern))) ∧
    List.Sublist (keptFiles excludePatterns parsedDiff) parsedDiff ∧
    keptFiles ["**/*.test.ts"]
      [ { toPath := some "a/b.ts", chunks := [] }
      , { toPath := some "a/b.test.ts", chunks := [] }
      , { toPath := some "/dev/null", chunks := [] } ]
      = [{ toPath := some "a/b.ts", chunks := [] }] ∧
    minimatch "a/b.test.ts" "**/*.test.ts" = true ∧
    minimatch "a/b.ts" "**/*.test.ts" = false ∧
    minimatch "/dev/null" "**/*.test.ts" = false := by
  refine ⟨?_, ?_, by decide, by decide, by decide, by decide⟩
  · unfold keptFiles filterExcluded
    rw [List.filter_filter]
  · exact (List.filter_sublist _).trans (List.filter_sublist _)

/-- C6: the assembled comment list of `handlePullRequest` always ends with
exactly one summary comment with `path = ""` and `line = 0` as its last
element — everything before it is exactly the `analyzeCode` output — and
this holds in particular when the findings list is empty. -/
theorem commentList_ends_with_summary (respond : DiffFile → Chunk → List Finding)
    (fix : DiffFile → Chunk → Finding → String) (parsedDiff : List DiffFile) :
    (handlePullRequestComments respond fix parsedDiff).getLast? =
      some { body := createScoreComment (calculatePRScore (extractDiffStats parsedDiff))
           , path := some "", line := 0, diff_hunk := none } ∧
    (handlePullRequestComments respond fix parsedDiff).dropLast
      = analyzeCode respond fix parsedDiff ∧
    handlePullRequestComments respond fix [] =
      [{ body := createScoreComment (calculatePRScore (extractDiffStats []))
       , path := some "", line := 0, diff_hunk := none }] := by
  unfold handlePullRequestComments
  refine ⟨List.getLast?_concat _, List.dropLast_concat, ?_⟩
  simp [analyzeCode]

/-- C4: when the model's response text for a hunk is not parseable as JSON
(`jsonParse` throws, modelled by `none`), `getAIResponse` returns the empty
findings list — it is a total function, so no error reaches its caller —
and `analyzeCode` over the whole diff produces exactly the comments of the
surrounding files and of the hunk's sibling chunks: the bad hunk
contributes nothing and the rest of the pipeline proceeds. -/
theorem getAIResponse_unparseable_yields_no_findings
    (jsonParse : String → Option ParsedResponse)
    (modelText : DiffFile → Chunk → Except String (Option String))
    (fix : DiffFile → Chunk → Finding → String)
    (file : DiffFile) (chunk : Chunk) (cs1 cs2 : List Chunk)
    (fs1 fs2 : List DiffFile) (content : Option String)
    (hcall : modelText file chunk = Except.ok content)
    (hparse : jsonParse (content.getD "") = none)
    (hchunks : file.chunks = cs1 ++ chunk :: cs2) :
    getAIResponse jsonParse (modelText file chunk) = [] ∧
    analyzeCode (fun f c => getAIResponse jsonParse (modelText f c)) fix
        (fs1 ++ file :: fs2)
      = analyzeCode (fun f c => getAIResponse jsonParse (modelText f c)) fix fs1
        ++ (if file.toPath = some "/dev/null" then []
            else (cs1 ++ cs2).flatMap (fun c =>
              (getAIResponse jsonParse (modelText file c)).map (fun r =>
                mkFullComment file c r (fix file c r))))
        ++ analyzeCode (fun f c => getAIResponse jsonParse (modelText f c)) fix fs2 := by
  have hresp : getAIResponse jsonParse (modelText file chunk) = [] := by
    rw [hcall]
    unfold getAIResponse
    by_cases h : (content.getD "") ≠ ""
    · simp [h, hparse]
    · simp [h]
  refine ⟨hresp, ?_⟩
  have hfile : fileComments (fun f c => getAIResponse jsonParse (modelText f c))
      fix file
      = (if file.toPath = some "/dev/null" then []
         else (cs1 ++ cs2).flatMap (fun c =>
           (getAIResponse jsonParse (modelText file c)).map (fun r =>
             mkFullComment file c r (fix file c r)))) := by
    unfold fileComments
    by_cases h : file.toPath = some "/dev/null"
    · simp [h]
    · simp [h, hchunks, hresp]
  simp only [analyzeCode_eq_flatMap, List.flatMap_append, List.flatMap_cons,
    hfile, List.append_assoc]

/-- C4 witness: a concrete non-JSON response (`not json`) at the only hunk
of a one-file diff yields zero findings and an empty comment list. -/
theorem getAIResponse_unparseable_yields_no_findings_witness :
    modelTextBad fileW chunkW = Except.ok (some "not json") ∧
    jsonParseNone ((some "not json" : Option String).getD "") = none ∧
    fileW.chunks = [] ++ chunkW :: [] ∧
    (getAIResponse jsonParseNone (modelTextBad fileW chunkW) = [] ∧
     analyzeCode (fun f c => getAIResponse jsonParseNone (modelTextBad f c)) fixW
         ([] ++ fileW :: [])
       = analyzeCode (fun f c => getAIResponse jsonParseNone (modelTextBad f c))
           fixW []
         ++ (if fileW.toPath = some "/dev/null" then []
             else (([] : List Chunk) ++ []).flatMap (fun c =>
               (getAIResponse jsonParseNone (modelTextBad fileW c)).map (fun r =>
                 mkFullComment fileW c r (fixW fileW c r))))
         ++ analyzeCode (fun f c => getAIResponse jsonParseNone (modelTextBad f c))
             fixW []) :=
  ⟨rfl, rfl, rfl,
    getAIResponse_unparseable_yields_no_findings jsonParseNone modelTextBad fixW
      fileW chunkW [] [] [] [] (some "not json") rfl rfl rfl⟩

/-- C5 counterexample: on a failed fix-suggestion request `suggestCodeFix`
returns the fixed fallback string `Unable to generate a fix.`
(src/src/main.ts line 228), which is not the string `no fix available`
stated by the claim. -/
theorem suggestCodeFix_fallback_counterexample :
    suggestCodeFix (Except.error "network failure")
      = "Unable to generate a fix." ∧
    ¬ suggestCodeFix (Except.error "network failure") = "no fix available" :=
  ⟨rfl, by decide⟩

/-- C5 amended: whenever the fix-suggestion request fails for any reason,
`suggestCodeFix` returns the fixed fallback string
`Unable to generate a fix.` instead of failing, and the finding is still
emitted, with that fallback embedded in the fenced code block of its
comment body. -/
theorem suggestCodeFix_failure_fallback (e : String) (r : Finding)
    (file : DiffFile) (chunk : Chunk)
    (completion : DiffFile → Chunk → Finding → Except String String)
    (hfail : completion file chunk r = Except.error e)
    (hto : ¬ file.toPath = some "/dev/null")
    (hchunks : file.chunks = [chunk]) :
    suggestCodeFix (completion file chunk r) = "Unable to generate a fix." ∧
    analyzeCode (fun _ _ => [r])
        (fun f c resp => suggestCodeFix (completion f c resp)) [file]
      = [mkFullComment file chunk r "Unable to generate a fix."] ∧
    (mkFullComment file chunk r "Unable to generate a fix.").body
      = r.reviewComment
        ++ "\n\nSuggested Fix:\n```typescript\nUnable to generate a fix.\n```" := by
  have h1 : suggestCodeFix (completion file chunk r)
      = "Unable to generate a fix." := by
    rw [hfail]
    rfl
  refine ⟨h1, ?_, ?_⟩
  · rw [analyzeCode_eq_flatMap]
    simp [fileComments, hto, hchunks, h1]
  · unfold mkFullComment
    rw [String.append_assoc, String.append_assoc]
    exact congrArg (fun s => r.reviewComment ++ s) (by decide)

/-- C5 amended witness: a concrete timed-out completion request at a
one-finding, one-hunk diff still emits the finding, with the fallback text
in its body. -/
theorem suggestCodeFix_failure_fallback_witness :
    completionW fileW chunkW findingW = Except.error "timeout" ∧
    ¬ fileW.toPath = some "/dev/null" ∧
    fileW.chunks = [chunkW] ∧
    (suggestCodeFix (completionW fileW chunkW findingW)
        = "Unable to generate a fix." ∧
     analyzeCode (fun _ _ => [findingW])
         (fun f c resp => suggestCodeFix (completionW f c resp)) [fileW]
       = [mkFullComment fileW chunkW findingW "Unable to generate a fix."] ∧
     (mkFullComment fileW chunkW findingW "Unable to generate a fix.").body
       = findingW.reviewComment
         ++ "\n\nSuggested Fix:\n```typescript\nUnable to generate a fix.\n```") :=
  ⟨rfl, by decide, rfl,
    suggestCodeFix_failure_fallback "timeout" findingW fileW chunkW completionW
      rfl (by decide) rfl⟩

/-- C7: for a trigger action that is neither `opened` nor `synchronize`,
`main` performs no diff fetch and no model call — its effect trace is
empty — and the process exits with code 0. -/
theorem main_unsupported_action_is_noop (env : Env)
    (h1 : ¬ env.action = "opened") (h2 : ¬ env.action = "synchronize") :
    mainRun env = ([], 0) ∧
    Effect.fetchDiffCall ∉ (mainRun env).1 ∧
    Effect.modelCall ∉ (mainRun env).1 ∧
    (mainRun env).2 = 0 := by
  have h : mainRun env = ([], 0) := by
    unfold mainRun
    rw [if_neg]
    rintro (h | h)
    · exact h1 h
    · exact h2 h
  refine ⟨h, ?_, ?_, ?_⟩ <;> simp [h]

/-- C7 witness: the concrete `closed` action produces the empty effect
trace and exit code 0. -/
theorem main_unsupported_action_is_noop_witness :
    ¬ envClosed.action = "opened" ∧
    ¬ envClosed.action = "synchronize" ∧
    (mainRun envClosed = ([], 0) ∧
     Effect.fetchDiffCall ∉ (mainRun envClosed).1 ∧
     Effect.modelCall ∉ (mainRun envClosed).1 ∧
     (mainRun envClosed).2 = 0) :=
  ⟨by decide, by decide,
    main_unsupported_action_is_noop envClosed (by decide) (by decide)⟩

/-- C8 counterexample: in the concrete environment where the trigger action
is `opened` and the diff fetch fails with a transport error, the run exits
with code 1, not 0: `fetchDiff` logs and re-throws, nothing in
`handlePullRequest` catches the error, and `main`'s top-level catch calls
`process.exit(1)`. -/
theorem diffFetch_failure_exit_counterexample :
    (mainRun envDiffFetchFail).2 = 1 ∧
    ¬ (mainRun envDiffFetchFail).2 = 0 := by
  constructor
  · decide
  · decide

/-- C8 amended: when the diff-fetch call fails (transport error or
non-success status), the run stops after the resolve and fetch calls — no
model call, no review post — and the process exits with code 1, the failure
having been logged and re-thrown to the top-level handler; the graceful
`no diff found` return with exit code 0 applies only when the fetch
succeeds and yields an empty (falsy) diff. -/
theorem diffFetch_failure_exits_one (env : Env) (e : String)
    (haction : env.action = "opened" ∨ env.action = "synchronize")
    (hfail : env.diffFetch = Except.error e) :
    mainRun env = ([Effect.resolveComments, Effect.fetchDiffCall], 1) ∧
    ∀ env2 : Env, (env2.action = "opened" ∨ env2.action = "synchronize") →
      env2.diffFetch = Except.ok "" →
      mainRun env2 = ([Effect.resolveComments, Effect.fetchDiffCall], 0) := by
  constructor
  · unfold mainRun handlePullRequestRun
    rw [if_pos haction, hfail]
  · intro env2 ha2 hd2
    unfold mainRun handlePullRequestRun
    rw [if_pos ha2, hd2]
    simp

/-- C8 amended witness: the concrete failing-fetch environment stops after
the resolve and fetch calls with exit code 1. -/
theorem diffFetch_failure_exits_one_witness :
    (envDiffFetchFail.action = "opened" ∨
      envDiffFetchFail.action = "synchronize") ∧
    envDiffFetchFail.diffFetch = Except.error "HTTP 500" ∧
    (mainRun envDiffFetchFail
        = ([Effect.resolveComments, Effect.fetchDiffCall], 1) ∧
     ∀ env2 : Env, (env2.action = "opened" ∨ env2.action = "synchronize") →
       env2.diffFetch = Except.ok "" →
       mainRun env2 = ([Effect.resolveComments, Effect.fetchDiffCall], 0)) :=
  ⟨Or.inl rfl, rfl,
    diffFetch_failure_exits_one envDiffFetchFail "HTTP 500" (Or.inl rfl) rfl⟩

/-- C9 counterexample: with a model response pointing at line 999 — a line
that occurs nowhere among the hunk's changes, which carry new-file lines 1
to 3 only — the published comment list still contains a comment at line
999: `analyzeCode` has no guard against findings outside the hunk. -/
theorem unvalidated_line_published_counterexample :
    (analyzeCode (fun _ _ => [findingC9]) (fun _ _ _ => "fix") [fileC9]).map
        ReviewComment.line = [999] ∧
    ∀ ch ∈ chunkC9.changes, ¬ ch.ln = some 999 ∧ ¬ ch.ln2 = some 999 := by
  constructor
  · decide
  · decide

/-- C9 amended: every finding the model returns for a hunk of a non-deleted
file is published with `line` taken verbatim from the finding's
`lineNumber`, with no validation against the hunk's lines: the claimed
guard does not exist, so a finding whose line lies outside the hunk is
published all the same. -/
theorem analyzeCode_line_passthrough (respond : DiffFile → Chunk → List Finding)
    (fix : DiffFile → Chunk → Finding → String)
    (file : DiffFile) (chunk : Chunk) (r : Finding)
    (hto : ¬ file.toPath = some "/dev/null")
    (hchunk : chunk ∈ file.chunks)
    (hr : r ∈ respond file chunk) :
    mkFullComment file chunk r (fix file chunk r)
        ∈ analyzeCode respond fix [file] ∧
    (mkFullComment file chunk r (fix file chunk r)).line = r.lineNumber := by
  refine ⟨?_, rfl⟩
  rw [analyzeCode_eq_flatMap]
  simp only [List.flatMap_cons, List.flatMap_nil, List.append_nil]
  unfold fileComments
  rw [if_neg hto]
  exact List.mem_flatMap.mpr ⟨chunk, hchunk, List.mem_map.mpr ⟨r, hr, rfl⟩⟩

/-- C9 amended witness: the concrete finding at line 999 is published for
`fileC9` even though no change of `chunkC9` carries that line. -/
theorem analyzeCode_line_passthrough_witness :
    ¬ fileC9.toPath = some "/dev/null" ∧
    chunkC9 ∈ fileC9.chunks ∧
    findingC9 ∈ (fun (_ : DiffFile) (_ : Chunk) => [findingC9]) fileC9 chunkC9 ∧
    (mkFullComment fileC9 chunkC9 findingC9
          ((fun (_ : DiffFile) (_ : Chunk) (_ : Finding) => "fix")
            fileC9 chunkC9 findingC9)
        ∈ analyzeCode (fun _ _ => [findingC9]) (fun _ _ _ => "fix") [fileC9] ∧
     (mkFullComment fileC9 chunkC9 findingC9
          ((fun (_ : DiffFile) (_ : Chunk) (_ : Finding) => "fix")
            fileC9 chunkC9 findingC9)).line = findingC9.lineNumber) :=
  ⟨by decide, by decide, by decide,
    analyzeCode_line_passthrough (fun _ _ => [findingC9]) (fun _ _ _ => "fix")
      fileC9 chunkC9 findingC9 (by decide) (by decide) (by decide)⟩

end AICodeReviewer
